import Mathlib

/-!
Shallow embedding of `cmfpy/nlmetric/__init__.py` (coronamagpy).

Conventions used throughout this development:
* Time is a rational number measured in days; `datetime.datetime` values,
  `t.timestamp()` and `utils.datetime2unix` are all represented on that same
  rational axis (the conversions are strictly monotone affine maps, so every
  comparison, difference and interpolation in the source is faithfully
  captured; `timedelta(hours=h)` is the rational `h/24`).
* A possibly-NaN float is `Option ℚ` (`none` is NaN); a genuine Python
  exception is the outer `Option` of a function's return type.
* numpy/scipy primitives used by the source (`np.sign`, `np.diff`,
  `np.where`, `np.split`, `np.nanmedian`, `np.nansum`, elementwise `*` with
  length-1 broadcasting, and `scipy.interpolate.interp1d` with
  `bounds_error=False`, which sorts its knots and evaluates by the
  left-segment convention of `searchsorted`) are embedded below with their
  documented semantics.
* External collaborators (`projection.create_carrington_trajectory`, the
  downloaders in `cmfpy.io`, `sunpy.map.sample_at_coords`) are parameters of
  the embedded functions, exactly as the spec declares them out of scope.
-/

/-- A possibly-missing (NaN) rational value. -/
abbrev QOpt := Option ℚ

/-- Python/numpy `%` on reals: floored modulo, the result has the divisor's
sign (for a positive divisor it lies in `[0, divisor)`). -/
def qmod (a b : ℚ) : ℚ := a - b * ⌊a / b⌋

/-- numpy `np.sign`, NaN-propagating: `sign(NaN) = NaN`, `sign(0) = 0`. -/
def signQ : QOpt → QOpt
  | none => none
  | some x => some (if 0 < x then 1 else if x < 0 then -1 else 0)

/-- NaN-propagating product of two scalars (numpy elementwise `*`). -/
def mulQopt : QOpt → QOpt → QOpt
  | some a, some b => some (a * b)
  | _, _ => none

/-- numpy `np.nansum`: sum of a 1-D array ignoring NaN entries. -/
def nansumQ (l : List QOpt) : ℚ := (l.filterMap id).sum

/-- numpy `np.diff`: consecutive differences `l[i+1] - l[i]`. -/
def npdiff (l : List ℚ) : List ℚ := List.zipWith (fun a b => b - a) l l.tail

/-- Sequence a list of `Option`s: `none` (an exception while building a
Python list comprehension) propagates. -/
def optList : List (Option α) → Option (List α)
  | [] => some []
  | none :: _ => none
  | some a :: rest => (optList rest).map (a :: ·)

/-- Helper for `np.split`: slices `data[prev:i0], data[i0:i1], ..., data[ik:]`. -/
def np_split_aux (data : List α) : ℕ → List ℕ → List (List α)
  | prev, [] => [data.drop prev]
  | prev, i :: is => ((data.drop prev).take (i - prev)) :: np_split_aux data i is

/-- numpy `np.split` with a list of split indices. -/
def np_split (data : List α) (idxs : List ℕ) : List (List α) :=
  np_split_aux data 0 idxs

/-- numpy elementwise product of two 1-D arrays: equal lengths multiply
pointwise, a length-1 array broadcasts, anything else is a broadcast error. -/
def np_mult (a b : List QOpt) : Option (List QOpt) :=
  if a.length = b.length then some (List.zipWith mulQopt a b)
  else if a.length = 1 then some (b.map (fun y => mulQopt (a.headD none) y))
  else if b.length = 1 then some (a.map (fun x => mulQopt x (b.headD none)))
  else none

/-- numpy `np.nanmedian` of a 1-D array: the median of the non-NaN entries
(average of the two middle elements for an even count), NaN when no entry is
valid (also covering the empty slice). -/
def nanmedianQ (l : List QOpt) : QOpt :=
  let v := l.filterMap id
  if v.isEmpty then none
  else
    let s := List.insertionSort (· ≤ ·) v
    let n := s.length
    if n % 2 = 1 then some (s.getD (n / 2) 0)
    else some ((s.getD (n / 2 - 1) 0 + s.getD (n / 2) 0) / 2)

/-- Knot ordering used by `interp1d` (compares timestamps only). -/
def leFst (p q : ℚ × QOpt) : Prop := p.1 ≤ q.1

instance : DecidableRel leFst := fun p q => inferInstanceAs (Decidable (p.1 ≤ q.1))

instance : IsTotal (ℚ × QOpt) leFst := ⟨fun a b => le_total a.1 b.1⟩

instance : IsTrans (ℚ × QOpt) leFst := ⟨fun _ _ _ h1 h2 => le_trans h1 h2⟩

/-- `interp1d`'s knots, sorted by timestamp (`interp1d` sorts its input when
`assume_sorted` is left at its default). -/
def sortPairs (l : List (ℚ × QOpt)) : List (ℚ × QOpt) := List.insertionSort leFst l

/-- Linear interpolation through a sorted knot list, left-segment convention:
the segment `[x0, x1]` with the smallest `x1 ≥ t` is used, and a NaN on either
endpoint of that segment makes the value NaN (scipy's slope arithmetic). -/
def interpCore : List (ℚ × QOpt) → ℚ → QOpt
  | (x0, y0) :: (x1, y1) :: rest, t =>
    if t ≤ x1 then
      match y0, y1 with
      | some a, some b => some (a + (b - a) * (t - x0) / (x1 - x0))
      | _, _ => none
    else interpCore ((x1, y1) :: rest) t
  | _, _ => none

/-- `scipy.interpolate.interp1d(xs, ys, bounds_error=False, fill_value=fill)`
evaluated at `t`: out-of-range queries give `fill` (NaN is `fill = none`),
in-range queries interpolate linearly on the sorted knots. -/
def interp1dQ (xs : List ℚ) (ys : List QOpt) (fill : QOpt) (t : ℚ) : QOpt :=
  match sortPairs (xs.zip ys) with
  | [] => none
  | p :: ps =>
    if t < p.1 ∨ (ps.getLastD p).1 < t then fill
    else interpCore (p :: ps) t

/-- Modelled from the spec: `utils.gen_dt_arr(start, stop, cadence_days)` is
not under `src/`; per the spec it generates the uniform grid of timestamps
from `start` to `stop` at the given cadence (`start, start + cadence, ...`,
ending at the last point not beyond `stop`). -/
def gen_dt_arr (start stop cadence_days : ℚ) : List ℚ :=
  if 0 < cadence_days then
    (List.range (⌊(stop - start) / cadence_days⌋.toNat + 1)).map
      (fun i => start + i * cadence_days)
  else []

/-- Line 25 of the source: `(inst_body_position.lon.value + 180 % 360)`.
Python precedence binds `%` before `+`, so this is `lon + (180 % 360)`. -/
def inst_antipode (lon : ℚ) : ℚ := lon + qmod 180 360

/-- Lines 26-30: the dense ±30-day window at 6-hour cadence around
`center_date` (time measured in days). -/
def two_month_window (center_date : ℚ) : List ℚ :=
  gen_dt_arr (center_date - 30) (center_date + 30) (6 / 24)

/-- Lines 34-36: `np.where(np.diff((lon - antipode) % 360) > 180)[0] + 1`,
the crossing indices flagged by the resolver. -/
def carr_inds (lons : List ℚ) (antipode : ℚ) : List ℕ :=
  ((npdiff (lons.map (fun L => qmod (L - antipode) 360))).enum.filter
      (fun p => decide (p.2 > 180))).map (fun p => p.1 + 1)

/-- Lines 20-40: `determine_carrington_interval`. The external ephemeris
collaborator (`projection.create_carrington_trajectory`, declared out of
scope by the spec) is the parameter `ephem`, mapping a time to the body's
Carrington longitude in degrees. -/
def determine_carrington_interval (ephem : ℚ → ℚ) (center_date : ℚ) : List ℚ :=
  let antipode := inst_antipode (ephem center_date)
  let window := two_month_window center_date
  let traj := window.map ephem
  (carr_inds traj antipode).filterMap (fun i => window.get? i)

/-- Lines 43-51 of `make_hourly_medians`: the hourly grid spanning the data
and the split indices (first index whose timestamp exceeds each interior grid
edge). `none` is the `IndexError` raised by `datetimes[0]` on empty input or
by `np.where(...)[0][0]` when some edge is exceeded by no timestamp. -/
def hourly_grid_split (datetimes : List ℚ) : Option (List ℚ × List ℕ) :=
  match datetimes.head?, datetimes.getLast? with
  | some d0, some dl =>
    let datetime_hourly := gen_dt_arr d0 dl (1 / 24)
    let ts_edges := (datetime_hourly.drop 1).dropLast
    (optList (ts_edges.map
        (fun te => datetimes.findIdx? (fun t => decide (te < t))))).map
      (fun argsplit => (datetime_hourly, argsplit))
  | _, _ => none

/-- Line 52: the one-hour partitions of the data (`np.split(data, argsplit)`). -/
def hour_partitions (datetimes : List ℚ) (data : List QOpt) : Option (List (List QOpt)) :=
  (hourly_grid_split datetimes).map (fun p => np_split data p.2)

/-- Lines 42-55: `make_hourly_medians` returns the half-hour-shifted bin
centers and the per-bin `np.nanmedian` values. -/
def make_hourly_medians (datetimes : List ℚ) (data : List QOpt) :
    Option (List ℚ × List QOpt) :=
  (hourly_grid_split datetimes).map
    (fun p =>
      ((p.1.dropLast).map (fun t => t + 1 / 48),
        (np_split data p.2).map nanmedianQ))

/-- Lines 81-87 then 96-103 of `create_polarity_obs`, `body == "L1"` branch:
hourly medians of the raw series, negated (`br_medians *= -1`, GSE-X to
RTN-R), interpolated onto the hourly grid of the carrington interval
`(t0, t1)` with NaN fill, then `np.sign` unless `return_br`. The raw data
`(x, y)` stand for the external download's time and value columns; `none` is
the `ValueError` `interp1d` raises on fewer than two knots. -/
def create_polarity_obs_L1 (t0 t1 : ℚ) (x : List ℚ) (y : List QOpt)
    (return_br : Bool) : Option (List ℚ × List QOpt) :=
  match make_hourly_medians x y with
  | none => none
  | some (times_medians, br_medians0) =>
    let br_medians := br_medians0.map (Option.map Neg.neg)
    let datetimes_hourly := gen_dt_arr t0 t1 (1 / 24)
    if times_medians.length < 2 then none
    else
      let br_hourly := datetimes_hourly.map (interp1dQ times_medians br_medians none)
      if return_br then some (datetimes_hourly, br_hourly)
      else some (datetimes_hourly, br_hourly.map signQ)

/-- Lines 89-93 then 96-103 of `create_polarity_obs`, non-L1 branch: the
first column `data['y'][:,0]` is reduced unnegated, then interpolated and
signed exactly as in the L1 branch. -/
def create_polarity_obs_other (t0 t1 : ℚ) (x : List ℚ) (y : List (List QOpt))
    (return_br : Bool) : Option (List ℚ × List QOpt) :=
  match make_hourly_medians x (y.map (fun row => row.headD none)) with
  | none => none
  | some (times_medians, br_medians) =>
    let datetimes_hourly := gen_dt_arr t0 t1 (1 / 24)
    if times_medians.length < 2 then none
    else
      let br_hourly := datetimes_hourly.map (interp1dQ times_medians br_medians none)
      if return_br then some (datetimes_hourly, br_hourly)
      else some (datetimes_hourly, br_hourly.map signQ)

/-- Lines 151-157 of `create_polarity_model`: the NaN entries of the hourly
median radial-velocity series are filtered out (together with their
timestamps), and the survivors are interpolated onto the hourly trajectory
timestamps with `fill_value=360` (km/s) for out-of-range lookups. `none` is
the `ValueError` `interp1d` raises on fewer than two knots. -/
def vr_arr_hourly (times_medians : List ℚ) (vr_medians : List QOpt)
    (datetimes_hourly : List ℚ) : Option (List QOpt) :=
  let pairs := (times_medians.zip vr_medians).filter (fun p => !(p.2.isNone))
  if pairs.length < 2 then none
  else some (datetimes_hourly.map
    (interp1dQ (pairs.map Prod.fst) (pairs.map Prod.snd) (some 360)))

/-- Lines 177-188 of `compute_NL_metric`: both series are signed, the
observed polarity is re-gridded by `interp1d` (NaN fill) whenever lengths or
first/last timestamps disagree, and the elementwise product `mult` is formed.
`none` is an exception: an `IndexError` from `[0]`/`[-1]` on an empty
timestamp array (the `|` operator evaluates every operand), a `ValueError`
from `interp1d` on fewer than two knots, or a broadcast error. -/
def NL_mult (mt : List ℚ) (mv : List QOpt) (ot : List ℚ) (ov : List QOpt) :
    Option (List QOpt) :=
  if mt = [] ∨ ot = [] then none
  else
    let model_pol := mv.map signQ
    let obs_pol0 := ov.map signQ
    if mt.length ≠ ot.length ∨ mt.head? ≠ ot.head? ∨ mt.getLast? ≠ ot.getLast? then
      if ot.length < 2 then none
      else np_mult (mt.map (interp1dQ ot obs_pol0 none)) model_pol
    else np_mult obs_pol0 model_pol

/-- Line 189 of `compute_NL_metric`:
`np.nansum(mult[mult == 1]) / len(~np.isnan(mult))`. Note `len` of the
negated NaN mask is simply the length of `mult`. The score is `some none`
(a silent NaN with a runtime warning, not an exception) when `mult` is
empty, i.e. `0.0/0`. -/
def compute_NL_metric (mt : List ℚ) (mv : List QOpt) (ot : List ℚ)
    (ov : List QOpt) : Option QOpt :=
  match NL_mult mt mv ot ov with
  | none => none
  | some mult =>
    if mult = [] then some none
    else some (some (nansumQ (mult.filter (fun v => decide (v = some 1))) /
      ((mult.map (fun v => !v.isNone)).length : ℚ)))

/-- Follows claim C3's words, for comparison with `NL_mult`: on misalignment
the raw (unsigned) observed values are linearly interpolated onto the model
grid and the sign is re-derived after interpolation. -/
def NL_mult_spec_resample (mt : List ℚ) (mv : List QOpt) (ot : List ℚ)
    (ov : List QOpt) : Option (List QOpt) :=
  if mt = [] ∨ ot = [] then none
  else
    let model_pol := mv.map signQ
    let obs_pol0 := ov.map signQ
    if mt.length ≠ ot.length ∨ mt.head? ≠ ot.head? ∨ mt.getLast? ≠ ot.getLast? then
      if ot.length < 2 then none
      else np_mult ((mt.map (interp1dQ ot ov none)).map signQ) model_pol
    else np_mult obs_pol0 model_pol

/-- The score formula of line 189 applied to `NL_mult_spec_resample`. -/
def compute_NL_metric_spec_resample (mt : List ℚ) (mv : List QOpt) (ot : List ℚ)
    (ov : List QOpt) : Option QOpt :=
  match NL_mult_spec_resample mt mv ot ov with
  | none => none
  | some mult =>
    if mult = [] then some none
    else some (some (nansumQ (mult.filter (fun v => decide (v = some 1))) /
      ((mult.map (fun v => !v.isNone)).length : ℚ)))

/-! ### Helper lemmas -/

theorem signQ_idem (v : QOpt) : signQ (signQ v) = signQ v := by
  cases v with
  | none => rfl
  | some x =>
    by_cases h1 : 0 < x
    · norm_num [signQ, h1]
    · by_cases h2 : x < 0
      · norm_num [signQ, h1, h2]
      · norm_num [signQ, h1, h2]

theorem map_signQ_map_signQ (l : List QOpt) :
    (l.map signQ).map signQ = l.map signQ := by
  rw [List.map_map]
  exact List.map_congr_left (fun v _ => signQ_idem v)

theorem mulQopt_comm (a b : QOpt) : mulQopt a b = mulQopt b a := by
  cases a <;> cases b <;> simp [mulQopt, mul_comm]

theorem np_mult_comm (a b : List QOpt) : np_mult a b = np_mult b a := by
  unfold np_mult
  split_ifs with h1 h2 h3 h4 h5 h6 h7 h8 h9 <;> try omega
  all_goals try rfl
  all_goals try rw [List.zipWith_comm_of_comm mulQopt mulQopt_comm]
  all_goals try exact congrArg some (List.map_congr_left (fun y _ => mulQopt_comm _ y))
  all_goals try exact congrArg some (List.map_congr_left (fun y _ => (mulQopt_comm _ y).symm))

theorem NL_mult_map_signQ (mt : List ℚ) (mv : List QOpt) (ot : List ℚ) (ov : List QOpt) :
    NL_mult mt mv ot (ov.map signQ) = NL_mult mt mv ot ov := by
  unfold NL_mult
  rw [map_signQ_map_signQ]

theorem NL_mult_symm (mt ot : List ℚ) (mv ov : List QOpt)
    (hl : mt.length = ot.length) (hh : mt.head? = ot.head?)
    (hg : mt.getLast? = ot.getLast?) :
    NL_mult mt mv ot ov = NL_mult ot ov mt mv := by
  unfold NL_mult
  by_cases he : mt = [] ∨ ot = []
  · rw [if_pos he, if_pos (Or.symm he)]
  · rw [if_neg he, if_neg (fun hc => he (Or.symm hc))]
    have hmis : ¬(mt.length ≠ ot.length ∨ mt.head? ≠ ot.head? ∨ mt.getLast? ≠ ot.getLast?) := by
      push_neg
      exact ⟨hl, hh, hg⟩
    have hmis2 : ¬(ot.length ≠ mt.length ∨ ot.head? ≠ mt.head? ∨ ot.getLast? ≠ mt.getLast?) := by
      push_neg
      exact ⟨hl.symm, hh.symm, hg.symm⟩
    rw [if_neg hmis, if_neg hmis2, np_mult_comm]

/-- Unfolding helper: the score once the product array is known. -/
theorem compute_NL_metric_formula (mt : List ℚ) (mv : List QOpt) (ot : List ℚ)
    (ov : List QOpt) (mult : List QOpt) (hm : NL_mult mt mv ot ov = some mult) :
    compute_NL_metric mt mv ot ov =
      if mult = [] then some none
      else some (some (nansumQ (mult.filter (fun v => decide (v = some 1))) /
        ((mult.map (fun v => !v.isNone)).length : ℚ))) := by
  unfold compute_NL_metric
  rw [hm]

/-- Unfolding helper for the claim-C3 comparison variant. -/
theorem compute_NL_metric_spec_resample_formula (mt : List ℚ) (mv : List QOpt)
    (ot : List ℚ) (ov : List QOpt) (mult : List QOpt)
    (hm : NL_mult_spec_resample mt mv ot ov = some mult) :
    compute_NL_metric_spec_resample mt mv ot ov =
      if mult = [] then some none
      else some (some (nansumQ (mult.filter (fun v => decide (v = some 1))) /
        ((mult.map (fun v => !v.isNone)).length : ℚ))) := by
  unfold compute_NL_metric_spec_resample
  rw [hm]

/-- Evaluation helper for the spec-modelled grid generator. -/
theorem gen_dt_arr_eval (start stop cadence : ℚ) (n : ℕ) (hc : 0 < cadence)
    (hn : ⌊(stop - start) / cadence⌋ = (n : ℤ)) :
    gen_dt_arr start stop cadence =
      (List.range (n + 1)).map (fun i => start + i * cadence) := by
  rw [gen_dt_arr, if_pos hc, hn, Int.toNat_natCast]

/-! ### Claim C1 -/

/-- C1: the claim says the score's denominator is the count of non-NaN
entries of the product array; the code divides by `len(~np.isnan(mult))`,
which is the total length of `mult` (the `len` of a boolean mask ignores its
values). At model polarities `[1, 1]` and observed polarities `[1, NaN]` on
the shared grid `[0, 1]` the product is `[1, NaN]`: the code returns
`1/2` while the claim's formula gives `1/1 = 1`. -/
theorem C1_denominator_is_total_length :
    compute_NL_metric [0, 1] [some 1, some 1] [0, 1] [some 1, none] =
      some (some (1 / 2)) ∧ ((1 : ℚ) / 2) ≠ 1 / 1 := by
  constructor
  · have h : NL_mult [0, 1] [some 1, some 1] [0, 1] [some 1, none] =
        some [some 1, none] := by
      norm_num [NL_mult, np_mult, signQ, mulQopt]
      all_goals intro h
      all_goals simp at h
    rw [compute_NL_metric_formula _ _ _ _ _ h]
    simp [nansumQ, List.filter_cons, List.filterMap_cons]
  · norm_num

/-! ### Claim C5 -/

/-- C5: the claim says the antipode equals `(longitude + 180) mod 360` and
lies in `[0, 360)` for every longitude in `[0, 360)`. Line 25 computes
`lon + (180 % 360) = lon + 180` (Python binds `%` before `+`): at longitude
200 the code's antipode is 380, while `(200 + 180) mod 360 = 20`, and 380
is not below 360. -/
theorem C5_antipode_precedence_slip :
    inst_antipode 200 = 380 ∧ qmod (200 + 180) 360 = 20 ∧
      ¬ inst_antipode 200 < 360 := by
  refine ⟨?_, ?_, ?_⟩
  · norm_num [inst_antipode, qmod]
  · norm_num [qmod]
  · norm_num [inst_antipode, qmod]

/-! ### Claim C6 -/

/-- C6 (counterexample): with model values `[NaN]` and observed values `[1]`
on the shared one-point grid, there are no comparable (non-NaN) entries, yet
the scorer returns the ordinary value `0` — no `ScoreUndefined` (nor any
other) error is raised. -/
theorem C6_counterexample_silent_zero :
    compute_NL_metric [0] [none] [0] [some 1] = some (some 0) := by
  have h : NL_mult [0] [none] [0] [some 1] = some [none] := by
    norm_num [NL_mult, np_mult, signQ, mulQopt]
  rw [compute_NL_metric_formula _ _ _ _ _ h]
  simp [nansumQ, List.filter_cons, List.filterMap_cons]

/-- C6 (amended): when the compared series produce a nonempty product array
with no comparable (non-NaN) entry, the scorer silently returns the score
`0` (the numerator is empty while the denominator is the total length); no
`ScoreUndefined` error exists in the code. (When the product array is empty
the division `0.0/0` yields a silent NaN, again not an error.) -/
theorem C6_amended_all_nan_scores_zero (mt : List ℚ) (mv : List QOpt)
    (ot : List ℚ) (ov : List QOpt) (mult : List QOpt)
    (hm : NL_mult mt mv ot ov = some mult) (hne : mult ≠ [])
    (hall : ∀ v ∈ mult, v = none) :
    compute_NL_metric mt mv ot ov = some (some 0) := by
  rw [compute_NL_metric_formula _ _ _ _ _ hm, if_neg hne]
  have h1 : mult.filter (fun v => decide (v = some 1)) = [] := by
    rw [List.filter_eq_nil_iff]
    intro a ha
    rw [hall a ha]
    simp
  rw [h1]
  simp [nansumQ]

/-- C6 witness: the amended theorem applied to a concrete two-point input
whose product array is `[NaN, NaN]`. -/
theorem C6_amended_all_nan_scores_zero_witness :
    compute_NL_metric [0, 1] [none, none] [0, 1] [some 1, some 1] =
      some (some 0) := by
  refine C6_amended_all_nan_scores_zero _ _ _ _ [none, none] ?_ ?_ ?_
  · norm_num [NL_mult, np_mult, signQ, mulQopt]
    all_goals intro h
    all_goals simp at h
  · simp
  · intro v hv
    simpa using hv

/-! ### Claim C3 -/

/-- C3 (counterexample): the claim says the observed series is resampled by
linear interpolation of the raw (unsigned) values, re-deriving the sign after
interpolation. The code (lines 180 and 186) signs first and interpolates the
already-signed polarity, never re-signing. With model `([0,1,2], [1,-1,1])`
and observed `([0,2], [2,-4])` the code scores `1/3` (the interpolated
polarity at `t = 1` is the spurious `0`), while the claim's procedure scores
`2/3` (the raw value interpolates to `-1`, whose sign is `-1`). -/
theorem C3_counterexample_sign_interpolated_not_raw :
    compute_NL_metric [0, 1, 2] [some 1, some (-1), some 1] [0, 2]
        [some 2, some (-4)] = some (some (1 / 3)) ∧
      compute_NL_metric_spec_resample [0, 1, 2] [some 1, some (-1), some 1]
        [0, 2] [some 2, some (-4)] = some (some (2 / 3)) := by
  constructor
  · have h : NL_mult [0, 1, 2] [some 1, some (-1), some 1] [0, 2]
        [some 2, some (-4)] = some [some 1, some 0, some (-1)] := by
      norm_num [NL_mult, np_mult, signQ, mulQopt, interp1dQ, sortPairs,
        List.insertionSort, List.orderedInsert, leFst, interpCore]
      all_goals rintro (h | h)
      all_goals simp at h
    rw [compute_NL_metric_formula _ _ _ _ _ h]
    norm_num [nansumQ, List.filter_cons, List.filterMap_cons]
    norm_num [List.filterMap]
    all_goals intro hh
    all_goals simp at hh
  · have h : NL_mult_spec_resample [0, 1, 2] [some 1, some (-1), some 1]
        [0, 2] [some 2, some (-4)] = some [some 1, some 1, some (-1)] := by
      norm_num [NL_mult_spec_resample, np_mult, signQ, mulQopt, interp1dQ,
        sortPairs, List.insertionSort, List.orderedInsert, leFst, interpCore]
      all_goals rintro (h | h)
      all_goals simp at h
    rw [compute_NL_metric_spec_resample_formula _ _ _ _ _ h]
    norm_num [nansumQ, List.filter_cons, List.filterMap_cons]
    norm_num [List.filterMap]
    all_goals intro hh
    all_goals simp at hh

/-- C3 (amended): sign is taken before any resampling and is not re-derived
afterwards, so the observed series enters the score only through the signs of
its values — replacing every observed value by its sign never changes the
score (under the claim's raw-value interpolation this fails, as the
counterexample shows). -/
theorem C3_amended_score_depends_only_on_obs_signs (mt : List ℚ)
    (mv : List QOpt) (ot : List ℚ) (ov : List QOpt) :
    compute_NL_metric mt mv ot (ov.map signQ) = compute_NL_metric mt mv ot ov := by
  unfold compute_NL_metric
  rw [NL_mult_map_signQ]

/-- C3 witness: the amended theorem at a concrete misaligned input. -/
theorem C3_amended_score_depends_only_on_obs_signs_witness :
    compute_NL_metric [0, 1, 2] [some 1, some (-1), some 1] [0, 2]
        ([some 2, some (-4)].map signQ) =
      compute_NL_metric [0, 1, 2] [some 1, some (-1), some 1] [0, 2]
        [some 2, some (-4)] :=
  C3_amended_score_depends_only_on_obs_signs [0, 1, 2]
    [some 1, some (-1), some 1] [0, 2] [some 2, some (-4)]

/-! ### Claim C7 -/

/-- C7 (counterexample): the scorer is not symmetric. With
`A = ([0,1,2], [1,1,1])` and `B = ([0,2], [1,-1])`, `score(A,B) = 1/3`
(observed polarity is resampled onto A's three-point grid and the product has
three entries) while `score(B,A) = 1/2` (the product has two entries). -/
theorem C7_counterexample_not_symmetric :
    compute_NL_metric [0, 1, 2] [some 1, some 1, some 1] [0, 2]
        [some 1, some (-1)] = some (some (1 / 3)) ∧
      compute_NL_metric [0, 2] [some 1, some (-1)] [0, 1, 2]
        [some 1, some 1, some 1] = some (some (1 / 2)) ∧
      compute_NL_metric [0, 1, 2] [some 1, some 1, some 1] [0, 2]
          [some 1, some (-1)] ≠
        compute_NL_metric [0, 2] [some 1, some (-1)] [0, 1, 2]
          [some 1, some 1, some 1] := by
  have h1 : compute_NL_metric [0, 1, 2] [some 1, some 1, some 1] [0, 2]
      [some 1, some (-1)] = some (some (1 / 3)) := by
    have h : NL_mult [0, 1, 2] [some 1, some 1, some 1] [0, 2]
        [some 1, some (-1)] = some [some 1, some 0, some (-1)] := by
      norm_num [NL_mult, np_mult, signQ, mulQopt, interp1dQ, sortPairs,
        List.insertionSort, List.orderedInsert, leFst, interpCore]
      all_goals rintro (h | h)
      all_goals simp at h
    rw [compute_NL_metric_formula _ _ _ _ _ h]
    norm_num [nansumQ, List.filter_cons, List.filterMap_cons]
    norm_num [List.filterMap]
    all_goals intro hh
    all_goals simp at hh
  have h2 : compute_NL_metric [0, 2] [some 1, some (-1)] [0, 1, 2]
      [some 1, some 1, some 1] = some (some (1 / 2)) := by
    have h : NL_mult [0, 2] [some 1, some (-1)] [0, 1, 2]
        [some 1, some 1, some 1] = some [some 1, some (-1)] := by
      norm_num [NL_mult, np_mult, signQ, mulQopt, interp1dQ, sortPairs,
        List.insertionSort, List.orderedInsert, leFst, interpCore]
      all_goals rintro (h | h)
      all_goals simp at h
    rw [compute_NL_metric_formula _ _ _ _ _ h]
    norm_num [nansumQ, List.filter_cons, List.filterMap_cons]
    norm_num [List.filterMap]
    all_goals intro hh
    all_goals simp at hh
  refine ⟨h1, h2, ?_⟩
  rw [h1, h2]
  intro hc
  rw [Option.some.injEq, Option.some.injEq] at hc
  norm_num at hc

/-- C7 (amended): the scorer is symmetric whenever the two series have equal
length and equal first and last timestamps — exactly the cases in which no
resampling is triggered, so the product array (and the score) is the same in
both argument orders. -/
theorem C7_amended_symmetric_when_aligned (mt ot : List ℚ)
    (mv ov : List QOpt) (hl : mt.length = ot.length)
    (hh : mt.head? = ot.head?) (hg : mt.getLast? = ot.getLast?) :
    compute_NL_metric mt mv ot ov = compute_NL_metric ot ov mt mv := by
  unfold compute_NL_metric
  rw [NL_mult_symm mt ot mv ov hl hh hg]

/-- C7 witness: the amended theorem on a shared two-point grid. -/
theorem C7_amended_symmetric_when_aligned_witness :
    compute_NL_metric [0, 1] [some 1, none] [0, 1] [some (-2), some 3] =
      compute_NL_metric [0, 1] [some (-2), some 3] [0, 1] [some 1, none] :=
  C7_amended_symmetric_when_aligned [0, 1] [0, 1] [some 1, none]
    [some (-2), some 3] rfl rfl rfl

/-! ### Claim C4 -/

/-- C4 (counterexample): the claim says a crossing is flagged wherever the
circular difference jumps by more than 180° in magnitude in either direction.
With antipode 0 and trajectory longitudes `[359, 1]`, the circular-difference
sequence is `[359, 1]`: the consecutive jump is `-358`, of magnitude greater
than 180, yet the code flags nothing (`np.diff(...) > 180` only catches
positive jumps). -/
theorem C4_counterexample_negative_jump_not_flagged :
    carr_inds [359, 1] 0 = [] ∧
      |(npdiff ([359, 1].map (fun L => qmod (L - 0) 360))).getD 0 0| > 180 := by
  constructor
  · norm_num [carr_inds, npdiff, qmod, List.enum, List.enumFrom]
  · norm_num [npdiff, qmod, List.getD]

/-- C4 (amended): a crossing is flagged at `k` exactly when the circular
difference jumps by more than `+180` degrees (positive direction only)
between samples `k-1` and `k`; negative jumps below `-180` are not flagged. -/
theorem C4_amended_flags_positive_jumps_only (lons : List ℚ) (antipode : ℚ)
    (k : ℕ) :
    k ∈ carr_inds lons antipode ↔
      ∃ i, k = i + 1 ∧ ∃ d,
        (npdiff (lons.map (fun L => qmod (L - antipode) 360)))[i]? = some d ∧
          180 < d := by
  unfold carr_inds
  simp only [List.mem_map, List.mem_filter, decide_eq_true_eq, gt_iff_lt]
  constructor
  · rintro ⟨p, ⟨hpe, hpd⟩, hk⟩
    exact ⟨p.1, hk.symm, p.2, List.mem_enum_iff_getElem?.mp hpe, hpd⟩
  · rintro ⟨i, hk, d, hd, hgt⟩
    exact ⟨(i, d), ⟨List.mem_enum_iff_getElem?.mpr hd, hgt⟩, hk.symm⟩

/-- C4 witness: the amended characterization flags index 1 for the positive
wraparound `[0, 359]` (circular differences `[0, 359]`, jump `+359`). -/
theorem C4_amended_flags_positive_jumps_only_witness :
    (1 : ℕ) ∈ carr_inds [0, 359] 0 :=
  (C4_amended_flags_positive_jumps_only [0, 359] 0 1).mpr
    ⟨0, rfl, 359, by norm_num [npdiff, qmod], by norm_num⟩

/-! ### Claim C2 -/

theorem npdiff_length (l : List ℚ) : (npdiff l).length = l.length - 1 := by
  unfold npdiff
  rw [List.length_zipWith, List.length_tail]
  exact min_eq_right (Nat.sub_le l.length 1)

theorem npdiff_replicate (n : ℕ) (x : ℚ) :
    npdiff (List.replicate n x) = List.replicate (n - 1) 0 := by
  unfold npdiff
  rw [List.tail_replicate, List.zipWith_replicate]
  rw [min_eq_right (Nat.sub_le n 1), sub_self]

theorem carr_inds_const (n : ℕ) (v a : ℚ) :
    carr_inds (List.replicate n v) a = [] := by
  unfold carr_inds
  rw [List.map_replicate, npdiff_replicate]
  have h : (List.replicate (n - 1) ((0:ℚ))).enum.filter
      (fun p => decide (p.2 > 180)) = [] := by
    rw [List.filter_eq_nil_iff]
    intro p hp
    have h2 := List.mem_enum_iff_getElem?.mp hp
    rw [List.getElem?_replicate] at h2
    by_cases hlt : p.1 < n - 1
    · rw [if_pos hlt] at h2
      have : p.2 = 0 := (Option.some.injEq _ _).mp h2.symm
      rw [this]
      norm_num
    · rw [if_neg hlt] at h2
      exact absurd h2 (by simp)
  rw [h]
  rfl

theorem carr_inds_lt_length (lons : List ℚ) (antipode : ℚ) :
    ∀ k ∈ carr_inds lons antipode, k < lons.length := by
  intro k hk
  obtain ⟨i, hk1, d, hd, _⟩ :=
    (C4_amended_flags_positive_jumps_only lons antipode k).mp hk
  have hi : i < (npdiff (lons.map (fun L => qmod (L - antipode) 360))).length := by
    by_contra hno
    rw [List.getElem?_eq_none (le_of_not_lt hno)] at hd
    exact absurd hd (by simp)
  rw [npdiff_length, List.length_map] at hi
  omega

theorem length_filterMap_get? (l : List α) (is : List ℕ)
    (h : ∀ i ∈ is, i < l.length) :
    (is.filterMap (fun i => l.get? i)).length = is.length := by
  induction is with
  | nil => rfl
  | cons i is ih =>
    have hi : i < l.length := h i (List.mem_cons_self i is)
    rw [List.filterMap_cons]
    cases hg : l.get? i with
    | none =>
      rw [List.get?_eq_getElem?, List.getElem?_eq_getElem hi] at hg
      exact absurd hg (by simp)
    | some a =>
      simp only [List.length_cons]
      rw [ih (fun j hj => h j (List.mem_cons_of_mem i hj))]

/-- C2 (counterexample): the claim says the resolver yields exactly two
crossings or fails with `IntervalNotFound`. For a body whose longitude is
constant over the window (zero detected crossings) the code silently returns
the empty, degenerate interval — no error of any kind is raised. -/
theorem C2_counterexample_silent_degenerate_interval :
    determine_carrington_interval (fun _ => 10) 0 = [] := by
  unfold determine_carrington_interval
  simp only
  have h : (two_month_window 0).map (fun _ => (10:ℚ)) =
      List.replicate (two_month_window 0).length 10 := List.map_const' _ 10
  rw [h, carr_inds_const]
  rfl

/-- C2 (amended): the resolver returns the window timestamps at the detected
crossing indices — every returned entry is an element of the ±30-day window
and the count equals the number of detected crossings, which may be zero, one,
two or more; no `IntervalNotFound` error exists in the code. -/
theorem C2_amended_returns_detected_crossings (ephem : ℚ → ℚ)
    (center_date : ℚ) :
    (∀ t ∈ determine_carrington_interval ephem center_date,
        t ∈ two_month_window center_date) ∧
      (determine_carrington_interval ephem center_date).length =
        (carr_inds ((two_month_window center_date).map ephem)
          (inst_antipode (ephem center_date))).length := by
  unfold determine_carrington_interval
  simp only
  constructor
  · intro t ht
    obtain ⟨i, _, hget⟩ := List.mem_filterMap.mp ht
    exact List.get?_mem hget
  · apply length_filterMap_get?
    intro k hk
    have h1 := carr_inds_lt_length _ _ k hk
    rwa [List.length_map] at h1

/-- C2 witness: the amended theorem at the identity ephemeris and center 0. -/
theorem C2_amended_returns_detected_crossings_witness :
    (determine_carrington_interval (fun t => t) 0).length =
      (carr_inds ((two_month_window 0).map (fun t => t))
        (inst_antipode 0)).length :=
  (C2_amended_returns_detected_crossings (fun t => t) 0).2

/-! ### Claim C8 -/

theorem nanmedianQ_all_none (l : List QOpt) (h : ∀ v ∈ l, v = none) :
    nanmedianQ l = none := by
  unfold nanmedianQ
  have he : l.filterMap id = [] :=
    List.filterMap_eq_nil_iff.mpr (fun a ha => by rw [h a ha]; rfl)
  rw [he]
  rfl

/-- C8: a one-hour partition whose values are all NaN — including a partition
holding no samples at all — reduces to a NaN (missing) median, never to a
fabricated numeric value: `np.nanmedian` of a valid-value-free slice is NaN. -/
theorem C8_all_nan_partition_yields_nan (datetimes : List ℚ) (data : List QOpt)
    (parts : List (List QOpt)) (ts : List ℚ) (meds : List QOpt)
    (hp : hour_partitions datetimes data = some parts)
    (hm : make_hourly_medians datetimes data = some (ts, meds))
    (i : ℕ) (hi : i < parts.length)
    (hnan : ∀ v ∈ parts.getD i [], v = none) :
    meds.getD i (some 0) = none := by
  unfold hour_partitions at hp
  unfold make_hourly_medians at hm
  cases hg : hourly_grid_split datetimes with
  | none => rw [hg] at hp; exact absurd hp (by simp)
  | some p =>
    rw [hg] at hp hm
    simp only [Option.map_some'] at hp hm
    have hparts : parts = np_split data p.2 :=
      ((Option.some.injEq _ _).mp hp.symm)
    have hmeds : meds = (np_split data p.2).map nanmedianQ := by
      have h2 := (Option.some.injEq _ _).mp hm.symm
      exact ((Prod.mk.injEq _ _ _ _).mp h2).2
    rw [hmeds, ← hparts]
    rw [List.getD_eq_getElem?_getD, List.getElem?_map]
    have hsome : parts[i]? = some (parts.getD i []) := by
      rw [List.getD_eq_getElem?_getD, List.getElem?_eq_getElem hi]
      rfl
    rw [hsome]
    simp only [Option.map_some', Option.getD_some]
    exact nanmedianQ_all_none _ hnan

/-- C8 witness: two samples two hours apart with values `[1, NaN]` partition
into `[[1], [NaN]]`; the second (all-NaN) hourly bin reduces to NaN. -/
theorem C8_all_nan_partition_yields_nan_witness :
    ([some 1, none] : List QOpt).getD 1 (some 0) = none := by
  have hg : hourly_grid_split [0, 1/12] = some ([0, 1/24, 1/12], [1]) := by
    have hga : gen_dt_arr 0 (1/12) (1/24) = [0, 1/24, 1/12] := by
      rw [gen_dt_arr_eval 0 (1/12) (1/24) 2 (by norm_num) (by norm_num)]
      rw [show (2 + 1) = 3 from rfl, show List.range 3 = [0, 1, 2] from rfl]
      norm_num
    norm_num [hourly_grid_split, hga, optList, List.findIdx?]
  have hp : hour_partitions [0, 1/12] [some 1, none] = some [[some 1], [none]] := by
    rw [hour_partitions, hg]
    norm_num [np_split, np_split_aux]
  have hm : make_hourly_medians [0, 1/12] [some 1, none] =
      some ([1/48, 1/16], [some 1, none]) := by
    rw [make_hourly_medians, hg]
    norm_num [np_split, np_split_aux, nanmedianQ, List.insertionSort,
      List.orderedInsert]
    all_goals intro hh
    all_goals simp at hh
  exact C8_all_nan_partition_yields_nan [0, 1/12] [some 1, none]
    [[some 1], [none]] [1/48, 1/16] [some 1, none] hp hm 1 (by norm_num)
    (by intro v hv; simpa using hv)

/-! ### Claim C9 -/

theorem zip_map_fst_snd (l : List (ℚ × QOpt)) :
    List.zip (l.map Prod.fst) (l.map Prod.snd) = l := by
  induction l with
  | nil => rfl
  | cons p l ih => simp [List.zip_cons_cons, ih]

theorem getLastD_mem_cons (ps : List (ℚ × QOpt)) (p : ℚ × QOpt) :
    ps.getLastD p ∈ p :: ps := by
  induction ps generalizing p with
  | nil => exact List.mem_singleton.mpr rfl
  | cons a l ih =>
    rw [List.getLastD_cons]
    exact List.mem_cons_of_mem p (ih a)

theorem interpCore_isSome (rest : List (ℚ × QOpt)) :
    ∀ (x0 x1 : ℚ × QOpt) (t : ℚ),
      (∀ p ∈ x0 :: x1 :: rest, p.2.isSome) →
      t ≤ (rest.getLastD x1).1 →
      (interpCore (x0 :: x1 :: rest) t).isSome := by
  induction rest with
  | nil =>
    intro x0 x1 t hys hle
    obtain ⟨a0, b0⟩ := x0
    obtain ⟨a1, b1⟩ := x1
    obtain ⟨v0, hv0⟩ := Option.isSome_iff_exists.mp
      (hys (a0, b0) (List.mem_cons_self _ _))
    obtain ⟨v1, hv1⟩ := Option.isSome_iff_exists.mp
      (hys (a1, b1) (List.mem_cons_of_mem _ (List.mem_cons_self _ _)))
    simp only at hv0 hv1
    subst hv0
    subst hv1
    simp only [List.getLastD_nil] at hle
    simp only [interpCore, if_pos hle]
    rfl
  | cons x2 rest ih =>
    intro x0 x1 t hys hle
    obtain ⟨a0, b0⟩ := x0
    obtain ⟨a1, b1⟩ := x1
    obtain ⟨v0, hv0⟩ := Option.isSome_iff_exists.mp
      (hys (a0, b0) (List.mem_cons_self _ _))
    obtain ⟨v1, hv1⟩ := Option.isSome_iff_exists.mp
      (hys (a1, b1) (List.mem_cons_of_mem _ (List.mem_cons_self _ _)))
    simp only at hv0 hv1
    subst hv0
    subst hv1
    rw [List.getLastD_cons] at hle
    by_cases hcmp : t ≤ a1
    · simp only [interpCore, if_pos hcmp]
      rfl
    · simp only [interpCore, if_neg hcmp]
      exact ih (a1, some v1) x2 t
        (fun p hp => hys p (List.mem_cons_of_mem _ hp)) hle

theorem sortPairs_perm (l : List (ℚ × QOpt)) : List.Perm (sortPairs l) l :=
  List.perm_insertionSort leFst l

theorem sortPairs_length (l : List (ℚ × QOpt)) :
    (sortPairs l).length = l.length :=
  List.length_insertionSort leFst l

theorem interp1dQ_pairs_fill (pairs : List (ℚ × QOpt)) (t c : ℚ)
    (hlen : 1 ≤ pairs.length)
    (hout : (∀ p ∈ pairs, t < p.1) ∨ (∀ p ∈ pairs, p.1 < t)) :
    interp1dQ (pairs.map Prod.fst) (pairs.map Prod.snd) (some c) t = some c := by
  unfold interp1dQ
  rw [zip_map_fst_snd]
  cases hs : sortPairs pairs with
  | nil =>
    exfalso
    have := sortPairs_length pairs
    rw [hs] at this
    simp at this
    omega
  | cons p ps =>
    have hmem : ∀ x ∈ p :: ps, x ∈ pairs := by
      intro x hx
      rw [← hs] at hx
      exact (sortPairs_perm pairs).mem_iff.mp hx
    show (if t < p.1 ∨ (ps.getLastD p).1 < t then some c
      else interpCore (p :: ps) t) = some c
    rcases hout with hL | hR
    · rw [if_pos (Or.inl (hL p (hmem p (List.mem_cons_self _ _))))]
    · rw [if_pos (Or.inr (hR _ (hmem _ (getLastD_mem_cons ps p))))]

theorem interp1dQ_pairs_isSome (pairs : List (ℚ × QOpt)) (t c : ℚ)
    (hlen : 2 ≤ pairs.length) (hys : ∀ p ∈ pairs, p.2.isSome) :
    (interp1dQ (pairs.map Prod.fst) (pairs.map Prod.snd) (some c) t).isSome := by
  unfold interp1dQ
  rw [zip_map_fst_snd]
  cases hs : sortPairs pairs with
  | nil =>
    exfalso
    have := sortPairs_length pairs
    rw [hs] at this
    simp at this
    omega
  | cons p ps =>
    have hmem : ∀ x ∈ p :: ps, x ∈ pairs := by
      intro x hx
      rw [← hs] at hx
      exact (sortPairs_perm pairs).mem_iff.mp hx
    show Option.isSome (if t < p.1 ∨ (ps.getLastD p).1 < t then some c
      else interpCore (p :: ps) t) = true
    by_cases hr : t < p.1 ∨ (ps.getLastD p).1 < t
    · rw [if_pos hr]
      rfl
    · rw [if_neg hr]
      push_neg at hr
      cases ps with
      | nil =>
        exfalso
        have := sortPairs_length pairs
        rw [hs] at this
        simp at this
        omega
      | cons p1 ps1 =>
        rw [List.getLastD_cons] at hr
        exact interpCore_isSome ps1 p p1 t
          (fun q hq => hys q (hmem q hq)) hr.2

/-- C9: whenever the radial-velocity interpolator succeeds (at least two
valid knots survive the NaN filter), it produces one value per hourly
trajectory timestamp; every timestamp lying outside the span of the filtered
knot times receives the fixed default speed 360, and no lookup fails or
produces NaN (every produced value is an ordinary number). -/
theorem C9_out_of_range_defaults_to_360 (tm : List ℚ) (vm : List QOpt)
    (q : List ℚ) (out : List QOpt) (h : vr_arr_hourly tm vm q = some out) :
    out.length = q.length ∧
      (∀ (i : ℕ) (t : ℚ), q[i]? = some t →
        ((∀ p ∈ (tm.zip vm).filter (fun p => !(p.2.isNone)), t < p.1) ∨
         (∀ p ∈ (tm.zip vm).filter (fun p => !(p.2.isNone)), p.1 < t)) →
        out[i]? = some (some 360)) ∧
      (∀ (i : ℕ) (v : QOpt), out[i]? = some v → v.isSome) := by
  unfold vr_arr_hourly at h
  simp only at h
  by_cases hl : ((tm.zip vm).filter (fun p => !(p.2.isNone))).length < 2
  · rw [if_pos hl] at h
    exact absurd h (by simp)
  · rw [if_neg hl] at h
    have hout : out = q.map
        (interp1dQ (((tm.zip vm).filter (fun p => !(p.2.isNone))).map Prod.fst)
          (((tm.zip vm).filter (fun p => !(p.2.isNone))).map Prod.snd)
          (some 360)) :=
      ((Option.some.injEq _ _).mp h).symm
    have hys : ∀ p ∈ (tm.zip vm).filter (fun p => !(p.2.isNone)), p.2.isSome := by
      intro p hp
      have h2 := (List.mem_filter.mp hp).2
      cases hv : p.2 with
      | none => rw [hv] at h2; simp at h2
      | some a => rfl
    refine ⟨?_, ?_, ?_⟩
    · rw [hout, List.length_map]
    · intro i t hqt hrange
      rw [hout, List.getElem?_map, hqt]
      simp only [Option.map_some']
      rw [interp1dQ_pairs_fill _ t 360 (by omega) hrange]
    · intro i v hv
      rw [hout, List.getElem?_map] at hv
      cases hq : q[i]? with
      | none => rw [hq] at hv; exact absurd hv (by simp)
      | some t =>
        rw [hq] at hv
        simp only [Option.map_some'] at hv
        have hv2 := (Option.some.injEq _ _).mp hv
        rw [← hv2]
        exact interp1dQ_pairs_isSome _ t 360 (by omega) hys

/-- C9 witness: two valid knots at times 0 and 1 with speeds 10 and 20; the
out-of-range hourly timestamp -5 receives the default 360. -/
theorem C9_out_of_range_defaults_to_360_witness :
    (([some 360] : List QOpt))[0]? = some (some 360) := by
  have h : vr_arr_hourly [0, 1] [some 10, some 20] [-5] = some [some 360] := by
    norm_num [vr_arr_hourly, interp1dQ, sortPairs, List.insertionSort,
      List.orderedInsert, leFst, interpCore, List.filter_cons]
  refine (C9_out_of_range_defaults_to_360 [0, 1] [some 10, some 20] [-5]
    [some 360] h).2.1 0 (-5) rfl (Or.inl ?_)
  have hf : (([(0:ℚ), 1].zip [some (10:ℚ), some 20]).filter
      (fun p => !(p.2.isNone))) = [(0, some 10), (1, some 20)] := by
    norm_num [List.zip, List.zipWith, List.filter]
  rw [hf]
  intro p hp
  simp only [List.mem_cons, List.not_mem_nil, or_false] at hp
  rcases hp with h2 | h2 <;> subst h2 <;> norm_num

/-! ### Claim C10 -/

theorem signQ_map_neg (v : QOpt) :
    signQ (Option.map Neg.neg v) = Option.map Neg.neg (signQ v) := by
  cases v with
  | none => rfl
  | some x =>
    by_cases h1 : 0 < x
    · norm_num [signQ, h1, not_lt.mpr (le_of_lt h1)]
    · by_cases h2 : x < 0
      · norm_num [signQ, h1, h2]
      · have hx : x = 0 := le_antisymm (not_lt.mp h1) (not_lt.mp h2)
        subst hx
        norm_num [signQ]

theorem orderedInsert_negsnd (a : ℚ × QOpt) (l : List (ℚ × QOpt)) :
    List.orderedInsert leFst (Prod.map id (Option.map Neg.neg) a)
        (l.map (Prod.map id (Option.map Neg.neg))) =
      (List.orderedInsert leFst a l).map (Prod.map id (Option.map Neg.neg)) := by
  induction l with
  | nil => rfl
  | cons b l ih =>
    rw [List.map_cons, List.orderedInsert, List.orderedInsert]
    by_cases h : leFst a b
    · rw [if_pos h,
        if_pos (show leFst (Prod.map id (Option.map Neg.neg) a)
          (Prod.map id (Option.map Neg.neg) b) from h)]
      rfl
    · rw [if_neg h,
        if_neg (show ¬leFst (Prod.map id (Option.map Neg.neg) a)
          (Prod.map id (Option.map Neg.neg) b) from h)]
      rw [List.map_cons, ih]

theorem sortPairs_negsnd (l : List (ℚ × QOpt)) :
    sortPairs (l.map (Prod.map id (Option.map Neg.neg))) =
      (sortPairs l).map (Prod.map id (Option.map Neg.neg)) := by
  unfold sortPairs
  induction l with
  | nil => rfl
  | cons a l ih =>
    rw [List.map_cons, List.insertionSort, List.insertionSort, ih,
      orderedInsert_negsnd]

theorem getLastD_negsnd (ps : List (ℚ × QOpt)) (p : ℚ × QOpt) :
    (ps.map (Prod.map id (Option.map Neg.neg))).getLastD
        (Prod.map id (Option.map Neg.neg) p) =
      Prod.map id (Option.map Neg.neg) (ps.getLastD p) := by
  induction ps generalizing p with
  | nil => rfl
  | cons a l ih =>
    rw [List.map_cons, List.getLastD_cons, List.getLastD_cons, ih]

theorem interpCore_negsnd (l : List (ℚ × QOpt)) :
    ∀ t : ℚ, interpCore (l.map (Prod.map id (Option.map Neg.neg))) t =
      Option.map Neg.neg (interpCore l t) := by
  induction l with
  | nil => intro t; rfl
  | cons x0 l ih =>
    intro t
    cases l with
    | nil => rfl
    | cons x1 rest =>
      obtain ⟨a0, b0⟩ := x0
      obtain ⟨a1, b1⟩ := x1
      by_cases hc : t ≤ a1
      · show interpCore ((a0, Option.map Neg.neg b0) ::
            (a1, Option.map Neg.neg b1) ::
            rest.map (Prod.map id (Option.map Neg.neg))) t =
          Option.map Neg.neg (interpCore ((a0, b0) :: (a1, b1) :: rest) t)
        cases b0 with
        | none => simp only [interpCore, if_pos hc]; rfl
        | some v0 =>
          cases b1 with
          | none => simp only [interpCore, if_pos hc]; rfl
          | some v1 =>
            simp only [interpCore, if_pos hc, Option.map_some']
            rw [Option.some.injEq]
            ring
      · show interpCore ((a0, Option.map Neg.neg b0) ::
            (a1, Option.map Neg.neg b1) ::
            rest.map (Prod.map id (Option.map Neg.neg))) t =
          Option.map Neg.neg (interpCore ((a0, b0) :: (a1, b1) :: rest) t)
        simp only [interpCore, if_neg hc]
        exact ih t

theorem interp1dQ_negsnd (xs : List ℚ) (ys : List QOpt) (t : ℚ) :
    interp1dQ xs (ys.map (Option.map Neg.neg)) none t =
      Option.map Neg.neg (interp1dQ xs ys none t) := by
  unfold interp1dQ
  rw [List.zip_map_right, sortPairs_negsnd]
  cases hs : sortPairs (xs.zip ys) with
  | nil => rfl
  | cons p ps =>
    show (if t < (Prod.map id (Option.map Neg.neg) p).1 ∨
        ((ps.map (Prod.map id (Option.map Neg.neg))).getLastD
          (Prod.map id (Option.map Neg.neg) p)).1 < t then none
      else interpCore ((p :: ps).map (Prod.map id (Option.map Neg.neg))) t) =
      Option.map Neg.neg (if t < p.1 ∨ (ps.getLastD p).1 < t then none
        else interpCore (p :: ps) t)
    rw [getLastD_negsnd]
    simp only [Prod.map_fst, id_eq]
    by_cases hr : t < p.1 ∨ (ps.getLastD p).1 < t
    · rw [if_pos hr, if_pos (show t < p.1 ∨ (ps.getLastD p).1 < t from hr)]
      rfl
    · rw [if_neg hr, if_neg (show ¬(t < p.1 ∨ (ps.getLastD p).1 < t) from hr)]
      exact interpCore_negsnd (p :: ps) t

/-- C10: on the same downloaded raw values, the L1 branch of the
observed-series builder negates the hourly medians (`br_medians *= -1`,
GSE-X to RTN-R) before interpolation and sign-taking, so its returned
polarity series is the pointwise negation of the polarity the non-L1 branch
produces from those values as the (unnegated) first column; negation commutes
with linear interpolation and with `np.sign`, so the L1 polarity is the
opposite of the sign obtained from the raw values. -/
theorem C10_L1_polarity_is_negated (t0 t1 : ℚ) (x : List ℚ) (y : List QOpt) :
    create_polarity_obs_L1 t0 t1 x y false =
      Option.map (fun p => (p.1, p.2.map (Option.map Neg.neg)))
        (create_polarity_obs_other t0 t1 x (y.map (fun a => [a])) false) := by
  unfold create_polarity_obs_L1 create_polarity_obs_other
  rw [show (y.map (fun a => [a])).map (fun row => row.headD none) = y by
    rw [List.map_map]
    exact (List.map_congr_left (fun a _ => rfl)).trans (List.map_id y)]
  cases hm : make_hourly_medians x y with
  | none => rfl
  | some p =>
    obtain ⟨tm, bm⟩ := p
    simp only
    by_cases hlt : tm.length < 2
    · rw [if_pos hlt, if_pos hlt]
      rfl
    · rw [if_neg hlt, if_neg hlt]
      simp only [Bool.false_eq_true, if_false, Option.map_some']
      refine congrArg some (Prod.ext rfl ?_)
      rw [List.map_map, List.map_map, List.map_map]
      apply List.map_congr_left
      intro t _
      show signQ (interp1dQ tm (bm.map (Option.map Neg.neg)) none t) =
        Option.map Neg.neg (signQ (interp1dQ tm bm none t))
      rw [interp1dQ_negsnd, signQ_map_neg]

/-- C10 witness: the theorem at a concrete carrington interval, sample times
and raw values. -/
theorem C10_L1_polarity_is_negated_witness :
    create_polarity_obs_L1 0 (1 / 24) [0, 1 / 12] [some 5, some (-3)] false =
      Option.map (fun p => (p.1, p.2.map (Option.map Neg.neg)))
        (create_polarity_obs_other 0 (1 / 24) [0, 1 / 12]
          ([some 5, some (-3)].map (fun a => [a])) false) :=
  C10_L1_polarity_is_negated 0 (1 / 24) [0, 1 / 12] [some 5, some (-3)]
